import Mathlib

/-!
Verification of `meal-planner/server.py`: a shallow embedding of the
document store, expiry classifier, tool executor, rate limiter and the
Claude conversation orchestrator, together with theorems settling the
frozen claims about the program.

Conventions of the embedding:
* JSON values are modelled by the inductive `JVal`; Python dicts are
  insertion-ordered association lists (`JObj`).
* Machine-level file contents are strings produced by `jsonDump`
  (whitespace/indentation of `json.dump(..., indent=2)` is abstracted to a
  compact rendering; only full-content replacement matters to the claims).
* Python exceptions are modelled with `Except String`; the carried string
  stands for `str(e)` of the raised exception.
* The external model (`client.messages.create`) is an oracle
  `Nat → Except String ModelResponse` indexed by the API-call counter:
  call `n` either returns a response or raises.
* `date.today()` is a parameter `today : String` (its ISO form) and date
  parsing is a parameter `p : String → Option Int` giving, for a parsable
  ISO date string, the signed number of days from today
  (`(fromisoformat(s).date() - date.today()).days`); `none` means
  `fromisoformat` raises.
-/

namespace MealPlanner

/-- JSON-serializable values as stored in the data-directory documents. -/
inductive JVal where
  | str (s : String)
  | num (n : Int)
  | bool (b : Bool)
  | null
  | arr (xs : List JVal)
  | obj (fields : List (String × JVal))

/-- A Python dict with string keys: insertion-ordered association list. -/
abbrev JObj := List (String × JVal)

/-- `d[k]` / `d.get(k)`: first binding of `k` (Python dicts are key-unique). -/
def lookupKey (k : String) : JObj → Option JVal
  | [] => none
  | (k2, v2) :: rest => if k2 = k then some v2 else lookupKey k rest

/-- `d[k] = v`: overwrite in place if present, else append (dict insertion order). -/
def setKey (k : String) (v : JVal) : JObj → JObj
  | [] => [(k, v)]
  | (k2, v2) :: rest => if k2 = k then (k2, v) :: rest else (k2, v2) :: setKey k v rest

/-- `d.get(k, dflt)`. -/
def getDefault (fs : JObj) (k : String) (dflt : JVal) : JVal :=
  (lookupKey k fs).getD dflt

/-- `base.update(override)` / `{**base, **override}`: shallow dict merge. -/
def dictUpdate (base override : JObj) : JObj :=
  override.foldl (fun acc kv => setKey kv.1 kv.2 acc) base

/-- Python truthiness of a JSON value. -/
def pyTruthy : JVal → Bool
  | .str s => !s.isEmpty
  | .num n => n != 0
  | .bool b => b
  | .null => false
  | .arr xs => !xs.isEmpty
  | .obj fs => !fs.isEmpty

/-- `a or b` on JSON values: `a` if truthy, else `b`. -/
def pyOr (a b : JVal) : JVal := if pyTruthy a then a else b

/-- Equality test of a JSON value against a string literal (`v == "lit"`). -/
def pyEqStr : JVal → String → Bool
  | .str s, t => s == t
  | _, _ => false

/-- A single-quote character, used when rendering Python `repr`. -/
def sq : String := (Char.ofNat 39).toString

/-- `str.lower()` on one character (ASCII model, as item names are ASCII). -/
def pyCharLower (c : Char) : Char :=
  if 65 ≤ c.toNat ∧ c.toNat ≤ 90 then Char.ofNat (c.toNat + 32) else c

/-- `s.lower()` (ASCII model). -/
def pyLower (s : String) : String := String.mk (s.data.map pyCharLower)

/-- `s.strip()` (space-stripping model, as the stripped f-strings only
introduce spaces). -/
def pyStrip (s : String) : String :=
  String.mk (((s.data.dropWhile fun c => c = ' ').reverse.dropWhile
    fun c => c = ' ').reverse)

mutual
/-- Python `repr()` of a JSON value (string escaping abstracted). -/
def pyRepr : JVal → String
  | .str s => sq ++ s ++ sq
  | .num n => toString n
  | .bool b => if b then "True" else "False"
  | .null => "None"
  | .arr xs => "[" ++ pyReprArr xs ++ "]"
  | .obj fs => "\x7b" ++ pyReprFields fs ++ "\x7d"

/-- `repr` of list elements, comma separated. -/
def pyReprArr : List JVal → String
  | [] => ""
  | [x] => pyRepr x
  | x :: xs => pyRepr x ++ ", " ++ pyReprArr xs

/-- `repr` of dict entries, comma separated. -/
def pyReprFields : List (String × JVal) → String
  | [] => ""
  | [(k, v)] => sq ++ k ++ sq ++ ": " ++ pyRepr v
  | (k, v) :: fs => sq ++ k ++ sq ++ ": " ++ pyRepr v ++ ", " ++ pyReprFields fs
end

/-- Python `str()` of a JSON value, as used in f-strings. -/
def pyStr : JVal → String
  | .str s => s
  | v => pyRepr v

mutual
/-- `json.dumps` of a value (indentation abstracted; see module docstring). -/
def jsonDump : JVal → String
  | .str s => "\"" ++ s ++ "\""
  | .num n => toString n
  | .bool b => if b then "true" else "false"
  | .null => "null"
  | .arr xs => "[" ++ jsonDumpArr xs ++ "]"
  | .obj fs => "\x7b" ++ jsonDumpFields fs ++ "\x7d"

/-- Serialized list elements, comma separated. -/
def jsonDumpArr : List JVal → String
  | [] => ""
  | [x] => jsonDump x
  | x :: xs => jsonDump x ++ ", " ++ jsonDumpArr xs

/-- Serialized dict entries, comma separated. -/
def jsonDumpFields : List (String × JVal) → String
  | [] => ""
  | [(k, v)] => "\"" ++ k ++ "\": " ++ jsonDump v
  | (k, v) :: fs => "\"" ++ k ++ "\": " ++ jsonDump v ++ ", " ++ jsonDumpFields fs
end

/-- `for x in v`: iteration over a JSON value. Lists yield elements, dicts
yield their keys, strings yield their characters; other values raise
`TypeError`. -/
def pyIter : JVal → Except String (List JVal)
  | .arr xs => .ok xs
  | .obj fs => .ok (fs.map fun kv => JVal.str kv.1)
  | .str s => .ok (s.toList.map fun c => JVal.str c.toString)
  | _ => .error "TypeError: object is not iterable"

/-- `len(v)` for sized JSON values; raises `TypeError` otherwise. -/
def pyLen : JVal → Except String Nat
  | .arr xs => .ok xs.length
  | .obj fs => .ok fs.length
  | .str s => .ok s.length
  | _ => .error "TypeError: object has no len"

-- ---------------------------------------------------------------------------
-- Expiry helpers (server.py lines 129-170)
-- ---------------------------------------------------------------------------

/-- `days_until(date_str)`: 999 for a falsy value; `(exp - today).days` for a
parsable ISO date string; any exception (unparsable string, non-string
value) is caught and yields 999. `p` is the date-parsing parameter. -/
def days_until (p : String → Option Int) (v : JVal) : Int :=
  if pyTruthy v = false then 999
  else
    match v with
    | .str s => (p s).getD 999
    | _ => 999

/-- `expiry_status(date_str)`: the red/amber/green expiry band. -/
def expiry_status (p : String → Option Int) (v : JVal) : String :=
  let d := days_until p v
  if d ≤ 1 then "red"
  else if d ≤ 3 then "amber"
  else "green"

/-- Claim C3: the expiry classifier assigns band red iff daysUntil ≤ 1,
amber iff 2 ≤ daysUntil ≤ 3, green iff daysUntil ≥ 4; an absent (falsy) or
unparsable expiry date gives the sentinel 999 and band green. -/
theorem claim_C3 : ∀ (p : String → Option Int) (v : JVal),
    (expiry_status p v = "red" ↔ days_until p v ≤ 1) ∧
    (expiry_status p v = "amber" ↔ (2 ≤ days_until p v ∧ days_until p v ≤ 3)) ∧
    (expiry_status p v = "green" ↔ 4 ≤ days_until p v) ∧
    ((pyTruthy v = false ∨ ∃ s, v = JVal.str s ∧ p s = none) →
      days_until p v = 999 ∧ expiry_status p v = "green") := by
  intro p v
  have hsent : (pyTruthy v = false ∨ ∃ s, v = JVal.str s ∧ p s = none) →
      days_until p v = 999 := by
    intro h
    rcases h with h | ⟨s, rfl, hp⟩
    · simp [days_until, h]
    · unfold days_until
      by_cases ht : pyTruthy (JVal.str s) = false
      · simp [ht]
      · simp [ht, hp]
  refine ⟨?_, ?_, ?_, ?_⟩
  · unfold expiry_status
    set d := days_until p v with hd
    by_cases h1 : d ≤ 1
    · simp [h1]
    · by_cases h3 : d ≤ 3 <;> simp [h1, h3]
  · unfold expiry_status
    set d := days_until p v with hd
    by_cases h1 : d ≤ 1
    · simp [h1] <;> omega
    · by_cases h3 : d ≤ 3
      · simp [h1, h3] <;> omega
      · simp [h1, h3] <;> omega
  · unfold expiry_status
    set d := days_until p v with hd
    by_cases h1 : d ≤ 1
    · simp [h1] <;> omega
    · by_cases h3 : d ≤ 3
      · simp [h1, h3] <;> omega
      · simp [h1, h3] <;> omega
  · intro h
    have h999 := hsent h
    refine ⟨h999, ?_⟩
    unfold expiry_status
    rw [h999]
    norm_num

/-- Witness for C3 at a concrete unparsable date string. -/
theorem claim_C3_witness :
    days_until (fun _ => none) (JVal.str "not-a-date") = 999 ∧
    expiry_status (fun _ => none) (JVal.str "not-a-date") = "green" :=
  (claim_C3 (fun _ => none) (JVal.str "not-a-date")).2.2.2
    (Or.inr ⟨"not-a-date", rfl, rfl⟩)

-- ---------------------------------------------------------------------------
-- Document store (server.py lines 97-123)
-- ---------------------------------------------------------------------------

/-- The data directory: logical document values keyed by filename.
`safe_read_json` parses the file back to the value that was written, so the
store is modelled at the level of values; `safe_write_json_file` below
models the byte-level write path itself. -/
abbrev Store := List (String × JVal)

/-- `safe_read_json(filename, default)`: the stored value, or the default
when the file is absent (or corrupt — corruption is logged, not raised). -/
def readDoc (st : Store) (name : String) (dflt : JVal) : JVal :=
  (lookupKey name st).getD dflt

/-- On-disk state of one target document file together with the scratch
temp file `tempfile.mkstemp` creates next to it. -/
structure FileState where
  target : Option String
  tmpExists : Bool
deriving DecidableEq

/-- `safe_write_json(filename, data)` at the file level. `dumpOk` is whether
`json.dump` to the temp file succeeds; `replaceOk` is whether the atomic
`os.replace(tmp, target)` succeeds (the OS guarantees replace is
all-or-nothing). On any exception the handler removes the temp file and
raises an HTTP 500 write error. -/
def safe_write_json_file (dumpOk replaceOk : Bool) (data : JVal) (fs : FileState) :
    Except String Unit × FileState :=
  -- tempfile.mkstemp: a fresh uniquely-named temp file now exists
  let afterTmp : FileState := ⟨fs.target, true⟩
  if dumpOk = false then
    (Except.error "Write error: dump failed", ⟨afterTmp.target, false⟩)
  else if replaceOk = false then
    (Except.error "Write error: replace failed", ⟨afterTmp.target, false⟩)
  else
    (Except.ok (), ⟨some (jsonDump data), false⟩)

/-- Claim C9: a write either fully replaces the target file's content with
the serialized new value, or fails with a write error leaving the target
unchanged; in both cases the temporary file is gone, so a partial write is
never observable. -/
theorem claim_C9 : ∀ (dumpOk replaceOk : Bool) (data : JVal) (fs : FileState),
    safe_write_json_file dumpOk replaceOk data fs
        = (Except.ok (), ⟨some (jsonDump data), false⟩) ∨
    ∃ e, safe_write_json_file dumpOk replaceOk data fs
        = (Except.error e, ⟨fs.target, false⟩) := by
  intro dumpOk replaceOk data fs
  cases dumpOk with
  | false => exact Or.inr ⟨"Write error: dump failed", rfl⟩
  | true =>
    cases replaceOk with
    | false => exact Or.inr ⟨"Write error: replace failed", rfl⟩
    | true => exact Or.inl rfl

-- ---------------------------------------------------------------------------
-- Rate limiter (server.py lines 47-50, 398-403)
-- ---------------------------------------------------------------------------

/-- `check_rate_limit()` over the module-level `_rate_timestamps` sequence:
prune to entries strictly newer than `now - 60`, raise HTTP 429 when 10 or
more remain (first component `false`), else record `now` and allow. The
returned list is the new `_rate_timestamps` (the pruning is kept even on
rejection, as the code mutates the list in place before raising). -/
def check_rate_limit (now : Int) (ts : List Int) : Bool × List Int :=
  let pruned := ts.filter fun t => decide (now - 60 < t)
  if 10 ≤ pruned.length then (false, pruned)
  else (true, pruned ++ [now])

/-- Claim C7: `check` prunes to entries newer than now − 60; it allows
exactly when fewer than 10 remain, recording `now`; on rejection no
timestamp is recorded. Concretely: 10 calls at time 0 all succeed, an 11th
at time 30 is rejected, and a call at time 61 (window elapsed) succeeds. -/
theorem claim_C7 :
    (∀ (now : Int) (ts : List Int),
      (check_rate_limit now ts).1 = true ↔
        (ts.filter fun t => decide (now - 60 < t)).length < 10) ∧
    (∀ (now : Int) (ts : List Int), (check_rate_limit now ts).1 = false →
        (check_rate_limit now ts).2 = ts.filter fun t => decide (now - 60 < t)) ∧
    (∀ (now : Int) (ts : List Int), (check_rate_limit now ts).1 = true →
        (check_rate_limit now ts).2
          = (ts.filter fun t => decide (now - 60 < t)) ++ [now]) ∧
    ((((List.replicate 10 (0 : Int)).foldl
        (fun (acc : Bool × List Int) t =>
          let r := check_rate_limit t acc.2
          (acc.1 && r.1, r.2)) (true, [])).1 = true) ∧
      (check_rate_limit 30 ((List.replicate 10 (0 : Int)).foldl
        (fun (acc : Bool × List Int) t =>
          let r := check_rate_limit t acc.2
          (acc.1 && r.1, r.2)) (true, [])).2).1 = false ∧
      (check_rate_limit 61 (check_rate_limit 30 ((List.replicate 10 (0 : Int)).foldl
        (fun (acc : Bool × List Int) t =>
          let r := check_rate_limit t acc.2
          (acc.1 && r.1, r.2)) (true, [])).2).2).1 = true) := by
  refine ⟨?_, ?_, ?_, by decide, by decide, by decide⟩
  · intro now ts
    unfold check_rate_limit
    by_cases h : 10 ≤ (ts.filter fun t => decide (now - 60 < t)).length
    · simp [h] <;> omega
    · simp [h] <;> omega
  · intro now ts
    unfold check_rate_limit
    by_cases h : 10 ≤ (ts.filter fun t => decide (now - 60 < t)).length
    · simp [h]
    · simp [h]
  · intro now ts
    unfold check_rate_limit
    by_cases h : 10 ≤ (ts.filter fun t => decide (now - 60 < t)).length
    · simp [h]
    · simp [h]

/-- Witness for C7: a rejected call keeps the pruned sequence unchanged. -/
theorem claim_C7_witness :
    (check_rate_limit 30 [0, 0, 0, 0, 0, 0, 0, 0, 0, 0]).2
      = [0, 0, 0, 0, 0, 0, 0, 0, 0, 0] ∧
    ((check_rate_limit 30 [0, 0, 0, 0, 0, 0, 0, 0, 0, 0]).1 = true ↔
      ([0, 0, 0, 0, 0, 0, 0, 0, 0, 0].filter
        fun t => decide ((30 : Int) - 60 < t)).length < 10) :=
  ⟨claim_C7.2.1 30 [0, 0, 0, 0, 0, 0, 0, 0, 0, 0] (by decide),
   claim_C7.1 30 [0, 0, 0, 0, 0, 0, 0, 0, 0, 0]⟩

-- ---------------------------------------------------------------------------
-- Preferences deep merge (server.py lines 386-392)
-- ---------------------------------------------------------------------------

mutual
/-- `_deep_merge(base, override)`: fold the override's entries into the base. -/
def deepMergeObj (b : JObj) : JObj → JObj
  | [] => b
  | (k, v) :: rest => deepMergeObj (deepMergeKey b k v) rest

/-- One entry of `_deep_merge`: if the key is present in the base and both
values are dicts, merge recursively; otherwise `base[k] = v`. -/
def deepMergeKey (b : JObj) (k : String) (v : JVal) : JObj :=
  match lookupKey k b, v with
  | some (JVal.obj bf), JVal.obj vf => setKey k (JVal.obj (deepMergeObj bf vf)) b
  | _, _ => setKey k v b
end

/-- The merged value `_deep_merge` leaves at one key, given the base's
previous value there (if any) and the override's value. -/
def deepMergeKeyVal : Option JVal → JVal → JVal
  | some (JVal.obj bf), JVal.obj vf => JVal.obj (deepMergeObj bf vf)
  | _, v => v

theorem lookupKey_setKey_self (l : JObj) (k : String) (v : JVal) :
    lookupKey k (setKey k v l) = some v := by
  induction l with
  | nil => simp [setKey, lookupKey]
  | cons kv rest ih =>
    obtain ⟨k2, v2⟩ := kv
    by_cases h : k2 = k
    · simp [setKey, lookupKey, h]
    · simp [setKey, lookupKey, h, ih]

theorem lookupKey_setKey_ne (l : JObj) (k2 k : String) (v : JVal) (h : k2 ≠ k) :
    lookupKey k (setKey k2 v l) = lookupKey k l := by
  induction l with
  | nil => simp [setKey, lookupKey, h]
  | cons kv rest ih =>
    obtain ⟨k3, v3⟩ := kv
    by_cases h3 : k3 = k2
    · subst h3
      simp [setKey, lookupKey, h]
    · by_cases hk : k3 = k
      · simp [setKey, lookupKey, h3, hk, Ne.symm h]
      · simp [setKey, lookupKey, h3, hk, ih]

theorem lookupKey_none_of_not_mem (l : JObj) (k : String) (h : k ∉ l.map Prod.fst) :
    lookupKey k l = none := by
  induction l with
  | nil => simp [lookupKey]
  | cons kv rest ih =>
    obtain ⟨k2, v2⟩ := kv
    simp only [List.map_cons, List.mem_cons] at h
    push_neg at h
    have : k2 ≠ k := fun hh => h.1 hh.symm
    simp [lookupKey, this, ih h.2]

theorem lookupKey_deepMergeKey_self (b : JObj) (k : String) (v : JVal) :
    lookupKey k (deepMergeKey b k v) = some (deepMergeKeyVal (lookupKey k b) v) := by
  unfold deepMergeKey deepMergeKeyVal
  cases hb : lookupKey k b with
  | none => cases v <;> simp [lookupKey_setKey_self]
  | some bv => cases bv <;> cases v <;> simp [lookupKey_setKey_self]

theorem lookupKey_deepMergeKey_ne (b : JObj) (k2 k : String) (v : JVal) (h : k2 ≠ k) :
    lookupKey k (deepMergeKey b k2 v) = lookupKey k b := by
  unfold deepMergeKey
  split <;> rw [lookupKey_setKey_ne _ _ _ _ h]

theorem lookupKey_deepMergeObj (o : JObj) : ∀ (b : JObj) (k : String),
    (o.map Prod.fst).Nodup →
    lookupKey k (deepMergeObj b o)
      = match lookupKey k o with
        | none => lookupKey k b
        | some vo => some (deepMergeKeyVal (lookupKey k b) vo) := by
  induction o with
  | nil => intro b k _; simp [deepMergeObj, lookupKey]
  | cons kv rest ih =>
    intro b k hnd
    obtain ⟨k1, v1⟩ := kv
    simp only [List.map_cons, List.nodup_cons] at hnd
    show lookupKey k (deepMergeObj (deepMergeKey b k1 v1) rest) = _
    rw [ih (deepMergeKey b k1 v1) k hnd.2]
    by_cases hk : k1 = k
    · subst hk
      rw [lookupKey_none_of_not_mem rest k1 hnd.1, lookupKey_deepMergeKey_self]
      simp [lookupKey]
    · rw [lookupKey_deepMergeKey_ne b k1 k v1 hk]
      simp [lookupKey, hk]

/-- Claim C5: `_deep_merge` merges recursively at keys where both values
are mappings and overwrites at every other key; in particular merging
`[a ↦ [x ↦ 1]]` into `[a ↦ [y ↦ 2]]` yields the mapping sending `a` to
`[y ↦ 2, x ↦ 1]`, and a non-mapping incoming value wholly replaces an
existing mapping. -/
theorem claim_C5 :
    (∀ (b o : JObj) (k : String), (o.map Prod.fst).Nodup →
      lookupKey k (deepMergeObj b o)
        = match lookupKey k o with
          | none => lookupKey k b
          | some vo => some (deepMergeKeyVal (lookupKey k b) vo)) ∧
    deepMergeObj [("a", JVal.obj [("y", JVal.num 2)])] [("a", JVal.obj [("x", JVal.num 1)])]
      = [("a", JVal.obj [("y", JVal.num 2), ("x", JVal.num 1)])] ∧
    deepMergeObj [("a", JVal.obj [("y", JVal.num 2)])] [("a", JVal.num 7)]
      = [("a", JVal.num 7)] :=
  ⟨fun b o k h => lookupKey_deepMergeObj o b k h, rfl, rfl⟩

/-- Witness for C5 at the spec's concrete example. -/
theorem claim_C5_witness :
    lookupKey "a" (deepMergeObj [("a", JVal.obj [("y", JVal.num 2)])]
        [("a", JVal.obj [("x", JVal.num 1)])])
      = some (JVal.obj [("y", JVal.num 2), ("x", JVal.num 1)]) :=
  claim_C5.1 [("a", JVal.obj [("y", JVal.num 2)])] [("a", JVal.obj [("x", JVal.num 1)])]
    "a" (by simp)

-- ---------------------------------------------------------------------------
-- Tool execution (server.py lines 323-383)
-- ---------------------------------------------------------------------------

/-- Result dict of one tool call: `{"success": True, "message": m}` or
`{"success": False, "error": e}`. -/
inductive ToolResult where
  | ok (message : String)
  | err (error : String)

/-- The result's `success` flag. -/
def ToolResult.success : ToolResult → Bool
  | .ok _ => true
  | .err _ => false

/-- `safe_write_json` at the store level: `wf` says which filenames fail to
write (the HTTP 500 "Write error" exception of lines 113-123); a successful
write replaces the document's value. The carried string models `str(e)` of
the raised `HTTPException`. -/
def writeJson (wf : String → Bool) (name : String) (v : JVal) (st : Store) :
    Except String Store :=
  if wf name then Except.error ("Write error: " ++ name)
  else Except.ok (setKey name v st)

/-- `item.get("name", "").lower()`: raises `AttributeError` when the item is
not a dict or the name value is not a string. -/
def getNameLower : JVal → Except String String
  | .obj fs =>
    match lookupKey "name" fs with
    | none => .ok ""
    | some (.str s) => .ok (pyLower s)
    | some _ => .error "AttributeError: lower"
  | _ => .error "AttributeError: get"

/-- `if "addedDate" not in item: item["addedDate"] = date.today().isoformat()`. -/
def addDefaultDate (today : String) : JVal → Except String JVal
  | .obj fs =>
    if (lookupKey "addedDate" fs).isNone then
      .ok (.obj (setKey "addedDate" (.str today) fs))
    else .ok (.obj fs)
  | _ => .error "TypeError: item is not a dict"

/-- `update_inventory` action `add`: default the added date, then
`inv.append(item)` (which raises unless the inventory is a list). -/
def addItems (today : String) (itemsL : List JVal) (inv : JVal) : Except String JVal :=
  itemsL.foldlM
    (fun cur item => do
      let item2 ← addDefaultDate today item
      match cur with
      | .arr xs => pure (JVal.arr (xs ++ [item2]))
      | _ => Except.error "AttributeError: append")
    inv

/-- `update_inventory` action `remove`: keep the inventory items whose
lower-cased name is not among the input names. -/
def removeItems (itemsL : List JVal) (inv : JVal) : Except String JVal := do
  let names ← itemsL.mapM getNameLower
  let invL ← pyIter inv
  let kept ← invL.foldlM
    (fun acc i => do
      let n ← getNameLower i
      if names.contains n then pure acc else pure (acc ++ [i]))
    []
  pure (JVal.arr kept)

/-- The inner scan of `update_inventory` action `update`: walk the current
inventory; at the first case-insensitive name match replace the entry by
`{**existing, **new_item}` and stop, returning the updated list; `none`
when no entry matches. Name comparisons are evaluated pairwise exactly as
the code does, so they can raise. -/
def findAndMergeL (ni : JVal) : List JVal → Except String (Option (List JVal))
  | [] => pure none
  | ex :: rest => do
    let en ← getNameLower ex
    let nn ← getNameLower ni
    if en = nn then
      match ex, ni with
      | .obj a, .obj b => pure (some (JVal.obj (dictUpdate a b) :: rest))
      | _, _ => Except.error "TypeError: mapping required"
    else
      match ← findAndMergeL ni rest with
      | some rest2 => pure (some (ex :: rest2))
      | none => pure none

/-- One input item of `update_inventory` action `update` against the
current inventory value. -/
def updateOne (ni : JVal) (inv : JVal) : Except String JVal :=
  match inv with
  | .arr xs => do
    match ← findAndMergeL ni xs with
    | some newL => pure (JVal.arr newL)
    | none => pure (JVal.arr (xs ++ [ni]))
  | _ => do
    -- enumerate(inv) raises TypeError unless iterable; an iterable
    -- non-list yields strings, whose .get raises, and appending to a
    -- non-list raises.
    let invL ← pyIter inv
    match invL with
    | [] => Except.error "AttributeError: append"
    | _ => Except.error "AttributeError: get"

/-- `update_inventory` action `update`: process input items in order. -/
def updateItems (itemsL : List JVal) (inv : JVal) : Except String JVal :=
  itemsL.foldlM (fun cur ni => updateOne ni cur) inv

/-- `execute_tool(name, input_data)` up to its outer `except` handler: the
returned result dict or the raised exception, together with the document
store as left by any write already performed before the exception. -/
def execute_tool_inner (wf : String → Bool) (today : String)
    (name : String) (input : JObj) (st : Store) : Except String ToolResult × Store :=
  if name = "update_meal_plan" then
    match lookupKey "meal_plan" input with
    | none => (Except.error (sq ++ "meal_plan" ++ sq), st)
    | some v =>
      match writeJson wf "meal-plan.json" v st with
      | .error e => (Except.error e, st)
      | .ok st2 => (Except.ok (ToolResult.ok "Meal plan updated"), st2)
  else if name = "update_shopping_list" then
    match lookupKey "shopping_list" input with
    | none => (Except.error (sq ++ "shopping_list" ++ sq), st)
    | some v =>
      match writeJson wf "shopping-list.json" v st with
      | .error e => (Except.error e, st)
      | .ok st2 => (Except.ok (ToolResult.ok "Shopping list updated"), st2)
  else if name = "update_inventory" then
    match lookupKey "action" input with
    | none => (Except.error (sq ++ "action" ++ sq), st)
    | some action =>
      let items := getDefault input "items" (JVal.arr [])
      let inv := readDoc st "inventory.json" (JVal.arr [])
      let newInv : Except String JVal :=
        if pyEqStr action "add" then
          (pyIter items).bind fun itemsL => addItems today itemsL inv
        else if pyEqStr action "remove" then
          (pyIter items).bind fun itemsL => removeItems itemsL inv
        else if pyEqStr action "update" then
          (pyIter items).bind fun itemsL => updateItems itemsL inv
        else if pyEqStr action "replace_all" then
          Except.ok items
        else Except.ok inv
      match newInv with
      | .error e => (Except.error e, st)
      | .ok inv2 =>
        match writeJson wf "inventory.json" inv2 st with
        | .error e => (Except.error e, st)
        | .ok st2 =>
          -- the result message is built after the write, so a len()
          -- failure leaves the write committed
          match pyLen items with
          | .error e => (Except.error e, st2)
          | .ok n => (Except.ok (ToolResult.ok
              ("Inventory " ++ pyStr action ++ ": " ++ toString n ++ " items")), st2)
  else if name = "update_status" then
    match lookupKey "status" input with
    | none => (Except.error (sq ++ "status" ++ sq), st)
    | some v =>
      match readDoc st "status.json" (JVal.obj []), v with
      | JVal.obj ex, JVal.obj upd =>
        match writeJson wf "status.json" (JVal.obj (dictUpdate ex upd)) st with
        | .error e => (Except.error e, st)
        | .ok st2 => (Except.ok (ToolResult.ok "Status updated"), st2)
      | JVal.obj _, _ => (Except.error "TypeError: update requires a mapping", st)
      | _, _ => (Except.error "AttributeError: update", st)
  else if name = "update_preferences" then
    match lookupKey "preferences" input with
    | none => (Except.error (sq ++ "preferences" ++ sq), st)
    | some v =>
      match readDoc st "preferences.json" (JVal.obj []), v with
      | JVal.obj ex, JVal.obj upd =>
        match writeJson wf "preferences.json" (JVal.obj (deepMergeObj ex upd)) st with
        | .error e => (Except.error e, st)
        | .ok st2 => (Except.ok (ToolResult.ok "Preferences updated"), st2)
      | JVal.obj _, _ => (Except.error "AttributeError: items", st)
      | _, _ => (Except.error "TypeError: key assignment", st)
  else
    (Except.ok (ToolResult.err ("Unknown tool: " ++ name)), st)

/-- `execute_tool`: the body above with the `except Exception` handler that
converts any raised exception into `{"success": False, "error": str(e)}`. -/
def execute_tool (wf : String → Bool) (today : String)
    (name : String) (input : JObj) (st : Store) : ToolResult × Store :=
  match execute_tool_inner wf today name input st with
  | (Except.ok r, st2) => (r, st2)
  | (Except.error e, st2) => (ToolResult.err e, st2)

/-- Claim C6 (amended): `execute_tool` never raises — any exception of the
body is captured and returned as a success-false result carrying the
exception's message — and a tool name outside the catalog yields
`{"success": False, "error": "Unknown tool: <name>"}`. -/
theorem claim_C6 :
    (∀ (wf : String → Bool) (today name : String) (input : JObj) (st : Store)
        (e : String) (st2 : Store),
      execute_tool_inner wf today name input st = (Except.error e, st2) →
      execute_tool wf today name input st = (ToolResult.err e, st2)) ∧
    (∀ (wf : String → Bool) (today name : String) (input : JObj) (st : Store),
      name ∉ ["update_meal_plan", "update_shopping_list", "update_inventory",
              "update_status", "update_preferences"] →
      execute_tool wf today name input st
        = (ToolResult.err ("Unknown tool: " ++ name), st)) := by
  constructor
  · intro wf today name input st e st2 h
    unfold execute_tool
    rw [h]
  · intro wf today name input st hn
    simp only [List.mem_cons, List.mem_singleton, not_or] at hn
    obtain ⟨h1, h2, h3, h4, h5, -⟩ := hn
    unfold execute_tool execute_tool_inner
    simp [h1, h2, h3, h4, h5]

/-- Witness for C6's capture clause: a missing required input key is
returned as an error result, not raised. -/
theorem claim_C6_witness :
    execute_tool (fun _ => false) "2026-10-12" "update_meal_plan" [] []
      = (ToolResult.err (sq ++ "meal_plan" ++ sq), []) :=
  claim_C6.1 (fun _ => false) "2026-10-12" "update_meal_plan" [] []
    (sq ++ "meal_plan" ++ sq) [] rfl

/-- Counterexample to C6 as stated: the unknown-tool error string is
`"Unknown tool: <name>"`, not the literal `"unknown tool"`. -/
theorem claim_C6_counterexample :
    (execute_tool (fun _ => false) "2026-10-12" "frobnicate" [] []).1
      = ToolResult.err "Unknown tool: frobnicate" ∧
    ("Unknown tool: frobnicate" : String) ≠ "unknown tool" :=
  ⟨rfl, by decide⟩

/-- Claim C10: `update_inventory` with an action outside
add/remove/update/replace_all rewrites the inventory document with its
current content unchanged and returns a success result that mentions the
unrecognized action. -/
theorem claim_C10 : ∀ (wf : String → Bool) (today a : String) (items : List JVal)
    (st : Store) (invDoc : JVal),
    a ∉ ["add", "remove", "update", "replace_all"] →
    lookupKey "inventory.json" st = some invDoc →
    wf "inventory.json" = false →
    execute_tool wf today "update_inventory"
        [("action", JVal.str a), ("items", JVal.arr items)] st
      = (ToolResult.ok ("Inventory " ++ a ++ ": " ++ toString items.length ++ " items"),
         setKey "inventory.json" invDoc st) := by
  intro wf today a items st invDoc hn hinv hwf
  simp only [List.mem_cons, List.mem_singleton, not_or] at hn
  obtain ⟨h1, h2, h3, h4, -⟩ := hn
  unfold execute_tool execute_tool_inner
  simp [lookupKey, getDefault, readDoc, hinv, pyEqStr, beq_iff_eq, h1, h2, h3, h4,
    writeJson, hwf, pyLen, pyStr]

/-- Witness for C10 with the concrete action "archive". -/
theorem claim_C10_witness :
    execute_tool (fun _ => false) "2026-10-12" "update_inventory"
        [("action", JVal.str "archive"),
         ("items", JVal.arr [JVal.obj [("name", JVal.str "Milk")]])]
        [("inventory.json", JVal.arr [JVal.obj [("name", JVal.str "Eggs")]])]
      = (ToolResult.ok "Inventory archive: 1 items",
         [("inventory.json", JVal.arr [JVal.obj [("name", JVal.str "Eggs")]])]) :=
  claim_C10 (fun _ => false) "2026-10-12" "archive"
    [JVal.obj [("name", JVal.str "Milk")]]
    [("inventory.json", JVal.arr [JVal.obj [("name", JVal.str "Eggs")]])]
    (JVal.arr [JVal.obj [("name", JVal.str "Eggs")]])
    (by decide) rfl rfl

-- ---------------------------------------------------------------------------
-- Claim C4: the `update` action against its specification
-- ---------------------------------------------------------------------------

/-- Specification-side rendering of C4's wording: the name an inventory
match is judged on — the item's name, lower-cased, empty when absent. -/
def itemNameLower : JVal → String
  | .obj fs =>
    match lookupKey "name" fs with
    | some (.str s) => pyLower s
    | _ => ""
  | _ => ""

/-- Specification-side rendering of C4's wording: the shallow merge of the
input item over the matched inventory item. -/
def mergeItems (ex ni : JVal) : JVal :=
  match ex, ni with
  | .obj a, .obj b => JVal.obj (dictUpdate a b)
  | _, _ => ni

/-- Specification-side rendering of C4's wording: index of the first
inventory item whose name matches case-insensitively. -/
def findMatchIdx (nn : String) : List JVal → Option Nat
  | [] => none
  | ex :: rest =>
    if itemNameLower ex == nn then some 0
    else (findMatchIdx nn rest).map (· + 1)

/-- Specification-side rendering of C4's wording: one input item — replace
the first case-insensitive name match by the shallow merge, else append at
the end. -/
def updateSpecStep (inv : List JVal) (ni : JVal) : List JVal :=
  match findMatchIdx (itemNameLower ni) inv with
  | some i => inv.set i (mergeItems (inv.getD i JVal.null) ni)
  | none => inv ++ [ni]

/-- Specification-side rendering of C4's wording: input items processed in
order. -/
def updateActionSpec (items inv : List JVal) : List JVal :=
  items.foldl updateSpecStep inv

/-- Whether a value at the "name" key admits `.lower()`. -/
def nameOk : Option JVal → Bool
  | none => true
  | some (.str _) => true
  | some _ => false

/-- A well-formed item: a dict with unique keys (as every Python dict has)
whose name, if present, is a string. -/
def goodItem : JVal → Bool
  | .obj fs => decide ((fs.map Prod.fst).Nodup) && nameOk (lookupKey "name" fs)
  | _ => false

theorem map_fst_setKey (l : JObj) (k : String) (v : JVal) :
    (setKey k v l).map Prod.fst
      = if k ∈ l.map Prod.fst then l.map Prod.fst else l.map Prod.fst ++ [k] := by
  induction l with
  | nil => simp [setKey]
  | cons kv rest ih =>
    obtain ⟨k2, v2⟩ := kv
    by_cases h : k2 = k
    · subst h; simp [setKey]
    · have hky : ¬ k = k2 := fun hh => h hh.symm
      by_cases hm : k ∈ rest.map Prod.fst <;>
        simp [setKey, h, ih, hm, hky, List.mem_cons]

theorem nodup_keys_setKey (l : JObj) (k : String) (v : JVal)
    (h : (l.map Prod.fst).Nodup) : ((setKey k v l).map Prod.fst).Nodup := by
  rw [map_fst_setKey]
  by_cases hm : k ∈ l.map Prod.fst
  · simpa [hm] using h
  · simp [List.nodup_append, h, List.disjoint_singleton, hm]

theorem nodup_keys_dictUpdate (o : JObj) : ∀ b : JObj, (b.map Prod.fst).Nodup →
    ((dictUpdate b o).map Prod.fst).Nodup := by
  induction o with
  | nil => intro b h; exact h
  | cons kv rest ih =>
    intro b h
    exact ih (setKey kv.1 kv.2 b) (nodup_keys_setKey b kv.1 kv.2 h)

theorem lookupKey_dictUpdate (o : JObj) : ∀ (b : JObj) (k : String),
    (o.map Prod.fst).Nodup →
    lookupKey k (dictUpdate b o)
      = match lookupKey k o with
        | some v => some v
        | none => lookupKey k b := by
  induction o with
  | nil => intro b k _; simp [dictUpdate, lookupKey]
  | cons kv rest ih =>
    intro b k hnd
    obtain ⟨k1, v1⟩ := kv
    simp only [List.map_cons, List.nodup_cons] at hnd
    show lookupKey k (dictUpdate (setKey k1 v1 b) rest) = _
    rw [ih _ k hnd.2]
    by_cases hk : k1 = k
    · subst hk
      rw [lookupKey_none_of_not_mem rest k1 hnd.1, lookupKey_setKey_self]
      simp [lookupKey]
    · rw [lookupKey_setKey_ne _ _ _ _ hk]
      simp [lookupKey, hk]

theorem exceptOk_bind {α β : Type} (a : α) (f : α → Except String β) :
    (Except.ok a : Except String α) >>= f = f a := rfl

theorem exceptPure_eq {α : Type} (a : α) :
    (pure a : Except String α) = Except.ok a := rfl

theorem goodItem_obj (v : JVal) (h : goodItem v = true) : ∃ fs, v = JVal.obj fs := by
  cases v with
  | obj fs => exact ⟨fs, rfl⟩
  | str s => simp [goodItem] at h
  | num n => simp [goodItem] at h
  | bool b => simp [goodItem] at h
  | null => simp [goodItem] at h
  | arr xs => simp [goodItem] at h

theorem getNameLower_good (v : JVal) (h : goodItem v = true) :
    getNameLower v = Except.ok (itemNameLower v) := by
  obtain ⟨fs, rfl⟩ := goodItem_obj v h
  simp only [goodItem, Bool.and_eq_true, decide_eq_true_eq] at h
  unfold getNameLower itemNameLower
  rcases hn : lookupKey "name" fs with - | nv
  · simp [hn]
  · cases nv <;> simp_all [nameOk]

theorem goodItem_merge (ex ni : JVal) (hex : goodItem ex = true)
    (hni : goodItem ni = true) : goodItem (mergeItems ex ni) = true := by
  obtain ⟨a, rfl⟩ := goodItem_obj ex hex
  obtain ⟨b, rfl⟩ := goodItem_obj ni hni
  simp only [goodItem, Bool.and_eq_true, decide_eq_true_eq] at hex hni
  simp only [mergeItems, goodItem, Bool.and_eq_true, decide_eq_true_eq]
  refine ⟨nodup_keys_dictUpdate b a hex.1, ?_⟩
  rw [lookupKey_dictUpdate b a "name" hni.1]
  rcases hb : lookupKey "name" b with - | nv
  · exact hex.2
  · rw [hb] at hni
    exact hni.2

theorem findAndMergeL_good (ni : JVal) (hni : goodItem ni = true) :
    ∀ invL : List JVal, (∀ x ∈ invL, goodItem x = true) →
    (findMatchIdx (itemNameLower ni) invL = none ∧
      findAndMergeL ni invL = Except.ok none) ∨
    (∃ i, findMatchIdx (itemNameLower ni) invL = some i ∧
      findAndMergeL ni invL
        = Except.ok (some (invL.set i (mergeItems (invL.getD i JVal.null) ni))) ∧
      ∀ x ∈ invL.set i (mergeItems (invL.getD i JVal.null) ni), goodItem x = true) := by
  intro invL
  induction invL with
  | nil => intro _; left; exact ⟨rfl, rfl⟩
  | cons ex rest ih =>
    intro hinv
    have hex : goodItem ex = true := hinv ex (by simp)
    have hrest : ∀ x ∈ rest, goodItem x = true := fun x hx => hinv x (by simp [hx])
    by_cases heq : itemNameLower ex = itemNameLower ni
    · right
      refine ⟨0, by simp [findMatchIdx, heq], ?_, ?_⟩
      · obtain ⟨a, ha⟩ := goodItem_obj ex hex
        obtain ⟨b, hb⟩ := goodItem_obj ni hni
        subst ha
        subst hb
        simp [findAndMergeL, getNameLower_good _ hex, getNameLower_good _ hni,
          exceptOk_bind, exceptPure_eq, heq, mergeItems]
      · intro x hx
        simp only [List.set_cons_zero, List.mem_cons] at hx
        rcases hx with rfl | hx
        · exact goodItem_merge ex ni hex hni
        · exact hrest x hx
    · rcases ih hrest with ⟨hf, he⟩ | ⟨i, hf, he, hg⟩
      · left
        refine ⟨by simp [findMatchIdx, heq, hf], ?_⟩
        simp [findAndMergeL, getNameLower_good ex hex, getNameLower_good ni hni,
          exceptOk_bind, exceptPure_eq, heq, he]
      · right
        refine ⟨i + 1, by simp [findMatchIdx, heq, hf], ?_, ?_⟩
        · have hset : (ex :: rest).set (i + 1)
              (mergeItems ((ex :: rest).getD (i + 1) JVal.null) ni)
              = ex :: rest.set i (mergeItems (rest.getD i JVal.null) ni) := by
            simp [List.getD]
          rw [hset]
          simp [findAndMergeL, getNameLower_good ex hex, getNameLower_good ni hni,
            exceptOk_bind, exceptPure_eq, heq, he]
        · intro x hx
          have hset : (ex :: rest).set (i + 1)
              (mergeItems ((ex :: rest).getD (i + 1) JVal.null) ni)
              = ex :: rest.set i (mergeItems (rest.getD i JVal.null) ni) := by
            simp [List.getD]
          rw [hset] at hx
          rcases List.mem_cons.mp hx with rfl | hx
          · exact hex
          · exact hg x hx

theorem updateItems_good (itemsL : List JVal) :
    ∀ invL : List JVal, (∀ x ∈ itemsL, goodItem x = true) →
    (∀ x ∈ invL, goodItem x = true) →
    updateItems itemsL (JVal.arr invL)
      = Except.ok (JVal.arr (updateActionSpec itemsL invL)) ∧
    ∀ x ∈ updateActionSpec itemsL invL, goodItem x = true := by
  induction itemsL with
  | nil => intro invL _ hinv; exact ⟨rfl, hinv⟩
  | cons ni rest ih =>
    intro invL hitems hinv
    have hni : goodItem ni = true := hitems ni (by simp)
    have hrest : ∀ x ∈ rest, goodItem x = true := fun x hx => hitems x (by simp [hx])
    rcases findAndMergeL_good ni hni invL hinv with ⟨hf, he⟩ | ⟨i, hf, he, hg⟩
    · have hstep : updateOne ni (JVal.arr invL) = Except.ok (JVal.arr (invL ++ [ni])) := by
        simp [updateOne, he, exceptOk_bind, exceptPure_eq]
      have hspec : updateSpecStep invL ni = invL ++ [ni] := by
        simp [updateSpecStep, hf]
      have hgood2 : ∀ x ∈ invL ++ [ni], goodItem x = true := by
        intro x hx
        rcases List.mem_append.mp hx with h | h
        · exact hinv x h
        · simp only [List.mem_singleton] at h
          subst h; exact hni
      have hrec := ih (invL ++ [ni]) hrest hgood2
      constructor
      · show (ni :: rest).foldlM (fun cur x => updateOne x cur) (JVal.arr invL) = _
        rw [List.foldlM_cons, hstep]
        show updateItems rest (JVal.arr (invL ++ [ni])) = _
        rw [hrec.1, ← hspec]
        rfl
      · show ∀ x ∈ updateActionSpec rest (updateSpecStep invL ni), goodItem x = true
        rw [hspec]
        exact hrec.2
    · have hstep : updateOne ni (JVal.arr invL)
          = Except.ok (JVal.arr (invL.set i (mergeItems (invL.getD i JVal.null) ni))) := by
        simp [updateOne, he, exceptOk_bind, exceptPure_eq]
      have hspec : updateSpecStep invL ni
          = invL.set i (mergeItems (invL.getD i JVal.null) ni) := by
        simp [updateSpecStep, hf]
      have hrec := ih (invL.set i (mergeItems (invL.getD i JVal.null) ni)) hrest hg
      constructor
      · show (ni :: rest).foldlM (fun cur x => updateOne x cur) (JVal.arr invL) = _
        rw [List.foldlM_cons, hstep]
        show updateItems rest (JVal.arr (invL.set i (mergeItems (invL.getD i JVal.null) ni))) = _
        rw [hrec.1, ← hspec]
        rfl
      · show ∀ x ∈ updateActionSpec rest (updateSpecStep invL ni), goodItem x = true
        rw [hspec]
        exact hrec.2

/-- Claim C4: `update_inventory` with action `update` processes input items
in order, replacing the first case-insensitive name match by the shallow
merge of the input over it, appending when no inventory item matches —
stated as agreement with the specification-side `updateActionSpec`. -/
theorem claim_C4 : ∀ (wf : String → Bool) (today : String)
    (items invL : List JVal) (st : Store),
    (∀ x ∈ items, goodItem x = true) →
    (∀ x ∈ invL, goodItem x = true) →
    lookupKey "inventory.json" st = some (JVal.arr invL) →
    wf "inventory.json" = false →
    execute_tool wf today "update_inventory"
        [("action", JVal.str "update"), ("items", JVal.arr items)] st
      = (ToolResult.ok ("Inventory update: " ++ toString items.length ++ " items"),
         setKey "inventory.json" (JVal.arr (updateActionSpec items invL)) st) := by
  intro wf today items invL st hitems hinv hlook hwf
  have hupd := (updateItems_good items invL hitems hinv).1
  unfold execute_tool execute_tool_inner
  simp [lookupKey, getDefault, readDoc, hlook, pyEqStr, exceptOk_bind,
    exceptPure_eq, Except.bind, writeJson, hwf, pyLen, pyStr, hupd, pyIter]

/-- Witness for C4 at the spec's "Tomato"/"tomato" example. -/
theorem claim_C4_witness :
    execute_tool (fun _ => false) "2026-10-12" "update_inventory"
        [("action", JVal.str "update"),
         ("items", JVal.arr [JVal.obj [("name", JVal.str "tomato"),
                                       ("amount", JVal.num 5)]])]
        [("inventory.json", JVal.arr [JVal.obj [("name", JVal.str "Tomato"),
                                                ("amount", JVal.num 1)]])]
      = (ToolResult.ok "Inventory update: 1 items",
         [("inventory.json",
           JVal.arr [JVal.obj [("name", JVal.str "tomato"),
                               ("amount", JVal.num 5)]])]) :=
  claim_C4 (fun _ => false) "2026-10-12"
    [JVal.obj [("name", JVal.str "tomato"), ("amount", JVal.num 5)]]
    [JVal.obj [("name", JVal.str "Tomato"), ("amount", JVal.num 1)]]
    [("inventory.json", JVal.arr [JVal.obj [("name", JVal.str "Tomato"),
                                            ("amount", JVal.num 1)]])]
    (by decide) (by decide) rfl rfl

-- ---------------------------------------------------------------------------
-- Expiry scan and context build (server.py lines 148-170, 204-237)
-- ---------------------------------------------------------------------------

/-- One annotated entry of `scan_inventory_expiry` together with its
days-until value (lines 152-161). -/
def scanEntry (p : String → Option Int) (fs : JObj) : JObj × Int :=
  let ev := pyOr (getDefault fs "bestBefore" JVal.null)
    (pyOr (getDefault fs "expiry" JVal.null) (JVal.str ""))
  let d := days_until p ev
  ([("item", getDefault fs "name" (JVal.str "Unknown")),
    ("amount", JVal.str (pyStrip (pyStr (getDefault fs "amount" (JVal.str ""))
      ++ " " ++ pyStr (getDefault fs "unit" (JVal.str ""))))),
    ("bestBefore", ev),
    ("daysUntil", JVal.num d),
    ("category", getDefault fs "category" (JVal.str ""))], d)

/-- `scan_inventory_expiry()` over the inventory document's value (read by
the callers with default `[]`): the red/amber/green categorised entries,
preserving inventory order within each band. -/
def scan_inventory_expiry (p : String → Option Int) (invDoc : JVal) :
    Except String JVal := do
  let items ← pyIter invDoc
  let cats ← items.foldlM
    (fun (acc : List JVal × List JVal × List JVal) it =>
      match it with
      | JVal.obj fs =>
        let ed := scanEntry p fs
        if ed.2 ≤ 1 then
          pure (acc.1 ++ [JVal.obj (setKey "action"
            (JVal.str "USE TODAY — cook, eat, or freeze immediately") ed.1)],
            acc.2.1, acc.2.2)
        else if ed.2 ≤ 3 then
          pure (acc.1, acc.2.1 ++ [JVal.obj (setKey "action"
            (JVal.str "Plan to use in next 1-2 meals") ed.1)], acc.2.2)
        else
          pure (acc.1, acc.2.1, acc.2.2 ++ [JVal.obj ed.1])
      | _ => Except.error "AttributeError: get")
    ([], [], [])
  pure (JVal.obj [("red", JVal.arr cats.1), ("amber", JVal.arr cats.2.1),
    ("green", JVal.arr cats.2.2)])

/-- Context-build annotation of one inventory item (lines 212-215):
`item["_daysUntil"]` and `item["_expiryStatus"]` are set in place. -/
def annotateItem (p : String → Option Int) : JVal → Except String JVal
  | JVal.obj fs =>
    let ev := pyOr (getDefault fs "bestBefore" JVal.null)
      (pyOr (getDefault fs "expiry" JVal.null) (JVal.str ""))
    Except.ok (JVal.obj (setKey "_expiryStatus" (JVal.str (expiry_status p ev))
      (setKey "_daysUntil" (JVal.num (days_until p ev)) fs)))
  | _ => Except.error "AttributeError: get"

/-- `for item in inv: ...` annotation over the inventory document value;
for a non-list iterable the iteration yields strings, so annotation raises
unless it is empty, in which case the document is left as read. -/
def annotateInvDoc (p : String → Option Int) (inv : JVal) : Except String JVal :=
  match inv with
  | JVal.arr xs => do
    let ann ← xs.mapM (annotateItem p)
    pure (JVal.arr ann)
  | v => do
    let items ← pyIter v
    let _ ← items.mapM (annotateItem p)
    pure v

/-- `json.dumps(alerts[k]) if alerts[k] else 'None'`. -/
def alertPart (alerts : JVal) (k : String) : String :=
  let v := match alerts with
    | JVal.obj fs => getDefault fs k JVal.null
    | _ => JVal.null
  if pyTruthy v then jsonDump v else "None"

/-- `build_context()` (lines 204-237): the dynamic context string assembled
from the current documents. `today` and `weekday` stand for
`date.today().isoformat()` and `strftime('%A')`. The resulting string,
together with the fixed system prompt, the tool catalog and the user's
message, forms the conversation sent to the external model, which the
call-indexed oracle abstracts. -/
def build_context (p : String → Option Int) (today weekday : String) (st : Store) :
    Except String String := do
  let prefs := readDoc st "preferences.json" (JVal.obj [])
  let inv := readDoc st "inventory.json" (JVal.arr [])
  let meals := readDoc st "meal-plan.json" (JVal.obj [])
  let statusDoc := readDoc st "status.json" (JVal.obj [])
  let invAnn ← annotateInvDoc p inv
  let alerts ← scan_inventory_expiry p (readDoc st "inventory.json" (JVal.arr []))
  let nInv ← pyLen inv
  pure ("\nTODAY: " ++ today ++ " (" ++ weekday ++ ")\n\nEXPIRY ALERTS:\nRED (use immediately): "
    ++ alertPart alerts "red"
    ++ "\nAMBER (use soon): " ++ alertPart alerts "amber"
    ++ "\n\nCURRENT INVENTORY (" ++ toString nInv ++ " items):\n" ++ jsonDump invAnn
    ++ "\n\nCURRENT MEAL PLAN:\n"
    ++ (if pyTruthy meals then jsonDump meals else "No meal plan yet.")
    ++ "\n\nUSER PREFERENCES:\n"
    ++ (if pyTruthy prefs then jsonDump prefs
        else "No preferences set yet — use sensible defaults.")
    ++ "\n\nCURRENT STATUS:\n"
    ++ (if pyTruthy statusDoc then jsonDump statusDoc else "No status data yet.")
    ++ "\n")

-- ---------------------------------------------------------------------------
-- Conversation orchestrator (server.py lines 406-491)
-- ---------------------------------------------------------------------------

/-- One content block of a model response: a tool-use request or a text
block (`hasattr(block, "text")` holds exactly for text blocks). -/
inductive Block where
  | toolUse (bid : String) (name : String) (input : JObj)
  | text (t : String)

/-- A response of `client.messages.create`. -/
structure ModelResponse where
  stop_reason : String
  content : List Block

/-- `"\n".join(text_parts)` over the text blocks of the final response. -/
def joinedText (r : ModelResponse) : String :=
  String.intercalate "\n" (r.content.filterMap fun b =>
    match b with
    | Block.text t => some t
    | _ => none)

/-- The Job's final text: the joined text segments, or the fallback
acknowledgement when the joined string is empty (falsy). -/
def responseText (r : ModelResponse) : String :=
  if joinedText r = "" then "Done — files updated." else joinedText r

/-- Outcome of the retried initial model call: the final result, the
number of API attempts made, the sleeps performed and the next call
index. -/
structure RetryResult where
  outcome : Except String ModelResponse
  attempts : Nat
  sleeps : List Nat
  next : Nat

/-- `for attempt in range(3): try ... except: if attempt == 2: raise;
time.sleep(2 ** attempt)` (lines 420-436), transcribed for the fixed bound
of 3 attempts. -/
def callWithRetry (oracle : Nat → Except String ModelResponse) : RetryResult :=
  match oracle 0 with
  | .ok r => ⟨.ok r, 1, [], 1⟩
  | .error _ =>
    match oracle 1 with
    | .ok r => ⟨.ok r, 2, [1], 2⟩
    | .error _ =>
      match oracle 2 with
      | .ok r => ⟨.ok r, 3, [1, 2], 3⟩
      | .error e => ⟨.error e, 3, [1, 2], 3⟩

/-- The result dict of a tool call as serialized into the tool_result
message content (`json.dumps(tool_result)`). -/
def toolResultToJVal : ToolResult → JVal
  | .ok m => JVal.obj [("success", JVal.bool true), ("message", JVal.str m)]
  | .err e => JVal.obj [("success", JVal.bool false), ("error", JVal.str e)]

/-- One round's tool executions (lines 448-457): run the tool_use blocks in
request order, extending the store and the Job's tool log, and building the
tool_result contents sent back to the model. -/
def execRound (wf : String → Bool) (today : String) (blocks : List Block)
    (st : Store) : Store × List (String × ToolResult) × List (String × String) :=
  blocks.foldl
    (fun acc b =>
      match b with
      | Block.toolUse bid name input =>
        let rs := execute_tool wf today name input acc.1
        (rs.2, acc.2.1 ++ [(name, rs.1)],
          acc.2.2 ++ [(bid, jsonDump (toolResultToJVal rs.1))])
      | _ => acc)
    (st, [], [])

/-- Result of the tool-use loop: the final response with the store, tool
log, number of rounds that executed tools and next call index — or the
exception of an in-loop model call. -/
inductive LoopRes where
  | done (final : ModelResponse) (st : Store) (log : List (String × ToolResult))
      (used : Nat) (next : Nat)
  | failed (e : String) (st : Store) (log : List (String × ToolResult)) (used : Nat)

/-- Rounds of the loop that executed tools. -/
def LoopRes.usedOf : LoopRes → Nat
  | .done _ _ _ used _ => used
  | .failed _ _ _ used => used

/-- The store as left by the loop. -/
def LoopRes.storeOf : LoopRes → Store
  | .done _ st _ _ _ => st
  | .failed _ st _ _ => st

/-- The final response, when the loop exited without an exception. -/
def LoopRes.finalOf : LoopRes → Option ModelResponse
  | .done final _ _ _ _ => some final
  | .failed _ _ _ _ => none

/-- The accumulated tool log. -/
def LoopRes.logOf : LoopRes → List (String × ToolResult)
  | .done _ _ log _ _ => log
  | .failed _ _ log _ => log

/-- The tool-use loop (lines 438-469): up to `fuel` rounds; a round runs
when the current response's stop_reason is "tool_use": it executes the
requested tools and re-invokes the model (without retry — an in-loop
exception propagates). `idx` is the next oracle index, `used` counts rounds
run so far. The conversation extension (lines 459-461) is carried only to
the model, which the call-indexed oracle abstracts. -/
def toolLoop (oracle : Nat → Except String ModelResponse) (wf : String → Bool)
    (today : String) :
    Nat → Nat → Nat → ModelResponse → Store → List (String × ToolResult) → LoopRes
  | 0, idx, used, result, st, log => .done result st log used idx
  | fuel + 1, idx, used, result, st, log =>
    if result.stop_reason = "tool_use" then
      match oracle idx with
      | .ok r2 => toolLoop oracle wf today fuel (idx + 1) (used + 1) r2
          (execRound wf today result.content st).1
          (log ++ (execRound wf today result.content st).2.1)
      | .error e => .failed e (execRound wf today result.content st).1
          (log ++ (execRound wf today result.content st).2.1) (used + 1)
    else .done result st log used idx

/-- Lines 481-486: recompute expiry alerts from the inventory document,
store them under `expiryAlerts` stamped with today's date, and write the
status document. -/
def refreshStatus (wf : String → Bool) (p : String → Option Int) (today : String)
    (st : Store) : Except String Store := do
  let alerts ← scan_inventory_expiry p (readDoc st "inventory.json" (JVal.arr []))
  match readDoc st "status.json" (JVal.obj []), alerts with
  | JVal.obj fs, JVal.obj afs =>
    let afs2 := setKey "lastChecked" (JVal.str today) afs
    writeJson wf "status.json" (JVal.obj (setKey "expiryAlerts" (JVal.obj afs2) fs)) st
  | _, _ => Except.error "TypeError: key assignment"

/-- Job status of an orchestration run. -/
inductive JStatus where
  | pending
  | complete
  | error

/-- The RESPONSES entry fields mutated by a run: status, final text,
tool log and error message. -/
structure Job where
  status : JStatus
  claude_response : Option String
  tools_executed : List (String × ToolResult)
  error : Option String

/-- The configuration-guidance message of the missing-credential path. -/
def configErrorMsg : String :=
  "Claude API key not configured. Go to Settings → Add-ons → Meal Planner → Configuration."

/-- `process_claude_request` (lines 406-491). `hasClient` is whether
`get_claude_client()` returned a client. The outer `except` marks the Job
error with the exception's message; note it leaves `claude_response` and
`tools_executed` at whatever was assigned before the exception (the
initial `None` / `[]` for failures up to the loop, the final text and log
when only the closing status refresh failed). -/
def process_claude_request (hasClient : Bool)
    (oracle : Nat → Except String ModelResponse) (wf : String → Bool)
    (p : String → Option Int) (today weekday userMessage : String)
    (st : Store) : Job × Store :=
  if hasClient = false then
    (⟨JStatus.error, none, [], some configErrorMsg⟩, st)
  else
    match build_context p today weekday st with
    | .error e => (⟨JStatus.error, none, [], some e⟩, st)
    | .ok _ctx =>
      let rr := callWithRetry oracle
      match rr.outcome with
      | .error e => (⟨JStatus.error, none, [], some e⟩, st)
      | .ok r0 =>
        match toolLoop oracle wf today 5 rr.next 0 r0 st [] with
        | .failed e st2 _ _ => (⟨JStatus.error, none, [], some e⟩, st2)
        | .done final st2 log _ _ =>
          let text := responseText final
          match refreshStatus wf p today st2 with
          | .ok st3 => (⟨JStatus.complete, some text, log, none⟩, st3)
          | .error e => (⟨JStatus.error, some text, log, some e⟩, st2)

-- ---------------------------------------------------------------------------
-- Claim C8: bounded retry with exponential backoff
-- ---------------------------------------------------------------------------

theorem callWithRetry_spec (oracle : Nat → Except String ModelResponse) :
    (∃ r, oracle 0 = Except.ok r ∧ callWithRetry oracle = ⟨Except.ok r, 1, [], 1⟩) ∨
    (∃ e0 r, oracle 0 = Except.error e0 ∧ oracle 1 = Except.ok r ∧
      callWithRetry oracle = ⟨Except.ok r, 2, [1], 2⟩) ∨
    (∃ e0 e1 r, oracle 0 = Except.error e0 ∧ oracle 1 = Except.error e1 ∧
      oracle 2 = Except.ok r ∧ callWithRetry oracle = ⟨Except.ok r, 3, [1, 2], 3⟩) ∨
    (∃ e0 e1 e2, oracle 0 = Except.error e0 ∧ oracle 1 = Except.error e1 ∧
      oracle 2 = Except.error e2 ∧
      callWithRetry oracle = ⟨Except.error e2, 3, [1, 2], 3⟩) := by
  cases h0 : oracle 0 with
  | ok r => exact Or.inl ⟨r, rfl, by simp [callWithRetry, h0]⟩
  | error e0 =>
    cases h1 : oracle 1 with
    | ok r => exact Or.inr (Or.inl ⟨e0, r, rfl, rfl, by simp [callWithRetry, h0, h1]⟩)
    | error e1 =>
      cases h2 : oracle 2 with
      | ok r => exact Or.inr (Or.inr (Or.inl
          ⟨e0, e1, r, rfl, rfl, rfl, by simp [callWithRetry, h0, h1, h2]⟩))
      | error e2 => exact Or.inr (Or.inr (Or.inr
          ⟨e0, e1, e2, rfl, rfl, rfl, by simp [callWithRetry, h0, h1, h2]⟩))

/-- Claim C8: the initial model invocation makes at most 3 attempts; the
backoff sleeps are a prefix of [1, 2] seconds, each delay double the
previous; an error outcome means all three attempts raised, carrying the
third exception; and such a failure marks the Job error with that message,
leaving the store untouched. -/
theorem claim_C8 :
    (∀ oracle : Nat → Except String ModelResponse,
      (callWithRetry oracle).attempts ≤ 3) ∧
    (∀ oracle : Nat → Except String ModelResponse,
      (callWithRetry oracle).sleeps
        = [1, 2].take ((callWithRetry oracle).attempts - 1)) ∧
    (∀ oracle : Nat → Except String ModelResponse,
      List.Chain' (fun a b => b = 2 * a) (callWithRetry oracle).sleeps) ∧
    (∀ (oracle : Nat → Except String ModelResponse) (e : String),
      (callWithRetry oracle).outcome = Except.error e →
      (∃ e0, oracle 0 = Except.error e0) ∧ (∃ e1, oracle 1 = Except.error e1) ∧
        oracle 2 = Except.error e) ∧
    (∀ (oracle : Nat → Except String ModelResponse) (wf : String → Bool)
        (p : String → Option Int) (today weekday um : String) (st : Store)
        (e : String),
      (build_context p today weekday st).isOk = true →
      (callWithRetry oracle).outcome = Except.error e →
      process_claude_request true oracle wf p today weekday um st
        = (⟨JStatus.error, none, [], some e⟩, st)) := by
  refine ⟨?_, ?_, ?_, ?_, ?_⟩
  · intro oracle
    rcases callWithRetry_spec oracle with ⟨r, h0, hc⟩ | ⟨e0, r, h0, h1, hc⟩ |
      ⟨e0, e1, r, h0, h1, h2, hc⟩ | ⟨e0, e1, e2, h0, h1, h2, hc⟩ <;> simp [hc]
  · intro oracle
    rcases callWithRetry_spec oracle with ⟨r, h0, hc⟩ | ⟨e0, r, h0, h1, hc⟩ |
      ⟨e0, e1, r, h0, h1, h2, hc⟩ | ⟨e0, e1, e2, h0, h1, h2, hc⟩ <;> simp [hc]
  · intro oracle
    rcases callWithRetry_spec oracle with ⟨r, h0, hc⟩ | ⟨e0, r, h0, h1, hc⟩ |
      ⟨e0, e1, r, h0, h1, h2, hc⟩ | ⟨e0, e1, e2, h0, h1, h2, hc⟩ <;> simp [hc]
  · intro oracle e h
    rcases callWithRetry_spec oracle with ⟨r, h0, hc⟩ | ⟨e0, r, h0, h1, hc⟩ |
      ⟨e0, e1, r, h0, h1, h2, hc⟩ | ⟨e0, e1, e2, h0, h1, h2, hc⟩ <;> rw [hc] at h
    · simp at h
    · simp at h
    · simp at h
    · simp only [Except.error.injEq] at h
      subst h
      exact ⟨⟨e0, h0⟩, ⟨e1, h1⟩, h2⟩
  · intro oracle wf p today weekday um st e hctx hret
    cases hc : build_context p today weekday st with
    | error e2 => rw [hc] at hctx; simp [Except.isOk, Except.toBool] at hctx
    | ok ctx => simp [process_claude_request, hc, hret]

/-- Witness for C8: with every attempt failing, the run errors with the
final exception's message and the store is unchanged. -/
theorem claim_C8_witness :
    process_claude_request true (fun _ => Except.error "boom") (fun _ => false)
        (fun _ => none) "2026-10-12" "Sunday" "plan" []
      = (⟨JStatus.error, none, [], some "boom"⟩, []) :=
  claim_C8.2.2.2.2 (fun _ => Except.error "boom") (fun _ => false) (fun _ => none)
    "2026-10-12" "Sunday" "plan" [] "boom" rfl rfl

-- ---------------------------------------------------------------------------
-- Claim C1: when is the status document's expiryAlerts section refreshed?
-- ---------------------------------------------------------------------------

theorem exceptError_bind {α β : Type} (e : String) (f : α → Except String β) :
    (Except.error e : Except String α) >>= f = Except.error e := rfl

theorem refreshStatus_ok (wf : String → Bool) (p : String → Option Int)
    (today : String) (st st3 : Store)
    (h : refreshStatus wf p today st = Except.ok st3) :
    ∃ fs afs,
      lookupKey "status.json" st3 = some (JVal.obj fs) ∧
      scan_inventory_expiry p (readDoc st3 "inventory.json" (JVal.arr []))
        = Except.ok (JVal.obj afs) ∧
      lookupKey "expiryAlerts" fs
        = some (JVal.obj (setKey "lastChecked" (JVal.str today) afs)) := by
  unfold refreshStatus at h
  cases hs : scan_inventory_expiry p (readDoc st "inventory.json" (JVal.arr [])) with
  | error e =>
    rw [hs, exceptError_bind] at h
    simp at h
  | ok alerts =>
    rw [hs, exceptOk_bind] at h
    cases hd : readDoc st "status.json" (JVal.obj []) with
    | obj fs =>
      rw [hd] at h
      cases alerts with
      | obj afs =>
        unfold writeJson at h
        by_cases hw : wf "status.json"
        · simp [hw] at h
        · simp only [hw, if_false, Bool.false_eq_true, Except.ok.injEq] at h
          subst h
          refine ⟨setKey "expiryAlerts"
            (JVal.obj (setKey "lastChecked" (JVal.str today) afs)) fs, afs,
            lookupKey_setKey_self _ _ _, ?_, lookupKey_setKey_self _ _ _⟩
          have hro : readDoc (setKey "status.json"
              (JVal.obj (setKey "expiryAlerts"
                (JVal.obj (setKey "lastChecked" (JVal.str today) afs)) fs)) st)
              "inventory.json" (JVal.arr [])
              = readDoc st "inventory.json" (JVal.arr []) := by
            unfold readDoc
            rw [lookupKey_setKey_ne _ _ _ _ (by decide)]
          rw [hro, hs]
      | str s => simp at h
      | num n => simp at h
      | bool b => simp at h
      | null => simp at h
      | arr xs => simp at h
    | str s => rw [hd] at h; cases alerts <;> simp at h
    | num n => rw [hd] at h; cases alerts <;> simp at h
    | bool b => rw [hd] at h; cases alerts <;> simp at h
    | null => rw [hd] at h; cases alerts <;> simp at h
    | arr xs => rw [hd] at h; cases alerts <;> simp at h

theorem process_complete_shape (hasClient : Bool)
    (oracle : Nat → Except String ModelResponse) (wf : String → Bool)
    (p : String → Option Int) (today weekday um : String) (st : Store)
    (h : (process_claude_request hasClient oracle wf p today weekday um st).1.status
      = JStatus.complete) :
    ∃ st2 st3 final log, refreshStatus wf p today st2 = Except.ok st3 ∧
      process_claude_request hasClient oracle wf p today weekday um st
        = (⟨JStatus.complete, some (responseText final), log, none⟩, st3) := by
  cases hasClient with
  | false => exfalso; simp [process_claude_request] at h
  | true =>
    cases hc : build_context p today weekday st with
    | error e => exfalso; simp [process_claude_request, hc] at h
    | ok ctx =>
      cases ho : (callWithRetry oracle).outcome with
      | error e => exfalso; simp [process_claude_request, hc, ho] at h
      | ok r0 =>
        cases hl : toolLoop oracle wf today 5 (callWithRetry oracle).next 0 r0 st [] with
        | failed e st2 log used =>
          exfalso; simp [process_claude_request, hc, ho, hl] at h
        | done final st2 log used nxt =>
          cases hr : refreshStatus wf p today st2 with
          | error e =>
            exfalso; simp [process_claude_request, hc, ho, hl, hr] at h
          | ok st3 =>
            exact ⟨st2, st3, final, log, hr,
              by simp [process_claude_request, hc, ho, hl, hr]⟩

/-- Claim C1 (amended): a run that marks the Job complete has refreshed
the status document's expiryAlerts section from the current inventory
classification, stamped with today's date; a run that ends error has not
(successfully) performed the refresh. -/
theorem claim_C1 : ∀ (hasClient : Bool)
    (oracle : Nat → Except String ModelResponse) (wf : String → Bool)
    (p : String → Option Int) (today weekday um : String) (st : Store),
    (process_claude_request hasClient oracle wf p today weekday um st).1.status
      = JStatus.complete →
    ∃ fs afs,
      lookupKey "status.json"
          (process_claude_request hasClient oracle wf p today weekday um st).2
        = some (JVal.obj fs) ∧
      scan_inventory_expiry p
          (readDoc (process_claude_request hasClient oracle wf p today weekday um st).2
            "inventory.json" (JVal.arr []))
        = Except.ok (JVal.obj afs) ∧
      lookupKey "expiryAlerts" fs
        = some (JVal.obj (setKey "lastChecked" (JVal.str today) afs)) := by
  intro hasClient oracle wf p today weekday um st h
  obtain ⟨st2, st3, final, log, hr, hproc⟩ :=
    process_complete_shape hasClient oracle wf p today weekday um st h
  rw [hproc]
  exact refreshStatus_ok wf p today st2 st3 hr

/-- Counterexample to C1 as stated: a run whose model call fails on all
three attempts ends error and leaves the status document untouched — its
expiry-alert section is not refreshed. -/
theorem claim_C1_counterexample :
    (process_claude_request true (fun _ => Except.error "boom") (fun _ => false)
        (fun _ => none) "2026-10-12" "Sunday" "hi"
        [("status.json", JVal.obj [("old", JVal.num 1)])]).1.status = JStatus.error ∧
    (process_claude_request true (fun _ => Except.error "boom") (fun _ => false)
        (fun _ => none) "2026-10-12" "Sunday" "hi"
        [("status.json", JVal.obj [("old", JVal.num 1)])]).2
      = [("status.json", JVal.obj [("old", JVal.num 1)])] ∧
    lookupKey "expiryAlerts" [("old", JVal.num 1)] = none :=
  ⟨rfl, rfl, rfl⟩

/-- Witness for C1 on a completing run. -/
theorem claim_C1_witness :
    ∃ fs afs,
      lookupKey "status.json"
          (process_claude_request true
            (fun _ => Except.ok ⟨"end_turn", [Block.text "All good."]⟩)
            (fun _ => false) (fun _ => none) "2026-10-12" "Sunday" "hi" []).2
        = some (JVal.obj fs) ∧
      scan_inventory_expiry (fun _ => none)
          (readDoc (process_claude_request true
            (fun _ => Except.ok ⟨"end_turn", [Block.text "All good."]⟩)
            (fun _ => false) (fun _ => none) "2026-10-12" "Sunday" "hi" []).2
            "inventory.json" (JVal.arr []))
        = Except.ok (JVal.obj afs) ∧
      lookupKey "expiryAlerts" fs
        = some (JVal.obj (setKey "lastChecked" (JVal.str "2026-10-12") afs)) :=
  claim_C1 true (fun _ => Except.ok ⟨"end_turn", [Block.text "All good."]⟩)
    (fun _ => false) (fun _ => none) "2026-10-12" "Sunday" "hi" [] rfl

-- ---------------------------------------------------------------------------
-- Claim C2: the tool-use loop is bounded to 5 rounds
-- ---------------------------------------------------------------------------

theorem toolLoop_used_le (oracle : Nat → Except String ModelResponse)
    (wf : String → Bool) (today : String) :
    ∀ (fuel idx used : Nat) (r : ModelResponse) (st : Store)
      (log : List (String × ToolResult)),
    (toolLoop oracle wf today fuel idx used r st log).usedOf ≤ used + fuel := by
  intro fuel
  induction fuel with
  | zero =>
    intro idx used r st log
    simp [toolLoop, LoopRes.usedOf]
  | succ n ih =>
    intro idx used r st log
    unfold toolLoop
    by_cases hr : r.stop_reason = "tool_use"
    · rw [if_pos hr]
      cases ho : oracle idx with
      | ok r2 =>
        have hih := ih (idx + 1) (used + 1) r2 (execRound wf today r.content st).1
          (log ++ (execRound wf today r.content st).2.1)
        exact le_trans hih (by omega)
      | error e =>
        simp [LoopRes.usedOf]
    · rw [if_neg hr]
      simp [LoopRes.usedOf]

/-- An external model that always returns a response (never raises):
the "sequence of model responses" the claim quantifies over. -/
def oracleOf (resp : Nat → ModelResponse) : Nat → Except String ModelResponse :=
  fun n => Except.ok (resp n)

theorem callWithRetry_oracleOf (resp : Nat → ModelResponse) :
    callWithRetry (oracleOf resp) = ⟨Except.ok (resp 0), 1, [], 1⟩ := rfl

theorem toolLoop_allTool (resp : Nat → ModelResponse)
    (h : ∀ n, (resp n).stop_reason = "tool_use") (wf : String → Bool)
    (today : String) :
    ∀ (fuel idx used : Nat) (r : ModelResponse) (st : Store)
      (log : List (String × ToolResult)),
    r.stop_reason = "tool_use" →
    ∃ st2 log2,
      toolLoop (oracleOf resp) wf today (fuel + 1) idx used r st log
        = LoopRes.done (resp (idx + fuel)) st2 log2 (used + fuel + 1)
            (idx + fuel + 1) := by
  intro fuel
  induction fuel with
  | zero =>
    intro idx used r st log hr
    refine ⟨(execRound wf today r.content st).1,
      log ++ (execRound wf today r.content st).2.1, ?_⟩
    unfold toolLoop
    rw [if_pos hr]
    rfl
  | succ n ih =>
    intro idx used r st log hr
    obtain ⟨st2, log2, hres⟩ := ih (idx + 1) (used + 1) (resp idx)
      (execRound wf today r.content st).1
      (log ++ (execRound wf today r.content st).2.1) (h idx)
    rw [show idx + 1 + n = idx + (n + 1) from by omega,
      show used + 1 + n = used + (n + 1) from by omega] at hres
    refine ⟨st2, log2, ?_⟩
    unfold toolLoop
    rw [if_pos hr]
    exact hres

/-- Claim C2: the tool-use loop runs at most 5 rounds; when every model
response requests tool use the loop stops after exactly 5 rounds with the
6th response as final, and (when the context build and closing status
refresh succeed, the only other effects the run performs) the Job is
marked complete with the joined text segments of that final response, or
the fallback string when no text was produced (`responseText`). -/
theorem claim_C2 :
    (∀ (oracle : Nat → Except String ModelResponse) (wf : String → Bool)
        (today : String) (idx : Nat) (r : ModelResponse) (st : Store)
        (log : List (String × ToolResult)),
      (toolLoop oracle wf today 5 idx 0 r st log).usedOf ≤ 5) ∧
    (∀ (resp : Nat → ModelResponse) (wf : String → Bool) (p : String → Option Int)
        (today weekday um : String) (st : Store),
      (∀ n, (resp n).stop_reason = "tool_use") →
      (build_context p today weekday st).isOk = true →
      (refreshStatus wf p today
          (toolLoop (oracleOf resp) wf today 5 1 0 (resp 0) st []).storeOf).isOk
        = true →
      (toolLoop (oracleOf resp) wf today 5 1 0 (resp 0) st []).usedOf = 5 ∧
      (toolLoop (oracleOf resp) wf today 5 1 0 (resp 0) st []).finalOf
        = some (resp 5) ∧
      (process_claude_request true (oracleOf resp) wf p today weekday um st).1.status
        = JStatus.complete ∧
      (process_claude_request true (oracleOf resp) wf p today weekday um
          st).1.claude_response
        = some (responseText (resp 5))) := by
  constructor
  · intro oracle wf today idx r st log
    simpa using toolLoop_used_le oracle wf today 5 idx 0 r st log
  · intro resp wf p today weekday um st hall hctx hrf
    obtain ⟨st2, log2, hdone⟩ :=
      toolLoop_allTool resp hall wf today 4 1 0 (resp 0) st [] (hall 0)
    norm_num at hdone
    rw [hdone] at hrf
    simp only [LoopRes.storeOf] at hrf
    refine ⟨by rw [hdone]; rfl, by rw [hdone]; rfl, ?_, ?_⟩
    · cases hc : build_context p today weekday st with
      | error e => rw [hc] at hctx; simp [Except.isOk, Except.toBool] at hctx
      | ok ctx =>
        cases hre : refreshStatus wf p today st2 with
        | error e => rw [hre] at hrf; simp [Except.isOk, Except.toBool] at hrf
        | ok st3 =>
          simp [process_claude_request, hc, callWithRetry_oracleOf, hdone, hre]
    · cases hc : build_context p today weekday st with
      | error e => rw [hc] at hctx; simp [Except.isOk, Except.toBool] at hctx
      | ok ctx =>
        cases hre : refreshStatus wf p today st2 with
        | error e => rw [hre] at hrf; simp [Except.isOk, Except.toBool] at hrf
        | ok st3 =>
          simp [process_claude_request, hc, callWithRetry_oracleOf, hdone, hre]

/-- The concrete all-tool-use response sequence of the C2 witness. -/
def respC2 : Nat → ModelResponse :=
  fun _ => ⟨"tool_use", [Block.toolUse "t1" "frobnicate" []]⟩

/-- Witness for C2: with a model that requests tools on every round, the
loop stops after 5 rounds and the run completes with the fallback text. -/
theorem claim_C2_witness :
    (toolLoop (oracleOf respC2) (fun _ => false) "2026-10-12" 5 1 0 (respC2 0)
        [] []).usedOf = 5 ∧
    (toolLoop (oracleOf respC2) (fun _ => false) "2026-10-12" 5 1 0 (respC2 0)
        [] []).finalOf = some (respC2 5) ∧
    (process_claude_request true (oracleOf respC2) (fun _ => false) (fun _ => none)
        "2026-10-12" "Sunday" "plan" []).1.status = JStatus.complete ∧
    (process_claude_request true (oracleOf respC2) (fun _ => false) (fun _ => none)
        "2026-10-12" "Sunday" "plan" []).1.claude_response
      = some (responseText (respC2 5)) :=
  claim_C2.2 respC2 (fun _ => false) (fun _ => none) "2026-10-12" "Sunday" "plan" []
    (fun _ => rfl) rfl rfl

end MealPlanner
